import Mathlib

/-!
# Verification of the ov_makehuman rig / blend-shape pipeline

A shallow embedding of the core pipeline of the `ov_makehuman` repository:
rig construction (`scripts/buildusd/skeletons.py`), skin-weight resolution,
target import (`scripts/buildusd/targets.py`), macro-modifier evaluation
(`scripts/buildusd/macrotargets.py`, `siborg/create/human/modifiers.py`) and
the skeltarget-separation algorithm (`scripts/separate_skeltargets.py`).

Real-number quantities of the Python/numpy code are modelled as rationals
(`ℚ`); numpy's non-finite results of division by zero (nan/inf) are modelled
as `none` in an `Option ℚ`.
-/

namespace OvMakehuman

/-- A 3-component vector, modelling a numpy row of 3 floats / `Gf.Vec3`. -/
structure Vec3 where
  x : ℚ
  y : ℚ
  z : ℚ
deriving DecidableEq, Repr

namespace Vec3

def add (a b : Vec3) : Vec3 := ⟨a.x + b.x, a.y + b.y, a.z + b.z⟩

def sub (a b : Vec3) : Vec3 := ⟨a.x - b.x, a.y - b.y, a.z - b.z⟩

def smul (c : ℚ) (a : Vec3) : Vec3 := ⟨c * a.x, c * a.y, c * a.z⟩

def zero : Vec3 := ⟨0, 0, 0⟩

/-- Componentwise sum of a list of vectors (`np.sum(..., axis=0)`). -/
def lsum (l : List Vec3) : Vec3 := l.foldr add zero

end Vec3

/-! ## Macro-modifier evaluation
    (`scripts/buildusd/macrotargets.py`, lines 65-86) -/

/-- One entry of a macrovar's `parts` list: a sub-range `[lowest, highest]`
labeled with the blendshape names for its low and high ends. -/
structure MacroPart where
  lowest : ℚ
  highest : ℚ
  low : String
  high : String
deriving DecidableEq, Repr

/-- The weight record returned by `calculate_weight_for_part`. -/
structure MacroWeight where
  low : String
  high : String
  weight_low : ℚ
  weight_high : ℚ
deriving DecidableEq, Repr

/-- `calculate_weight_for_part(part, value)` from `macrotargets.py`:
if the value lies in `[lowest, highest]` and the span is nonzero, the high
weight is `(value - lowest) / (highest - lowest)` and the low weight is its
complement; on a zero span the function returns `None` to avoid division by
zero; outside the range it returns `None`. -/
def calculate_weight_for_part (part : MacroPart) (value : ℚ) : Option MacroWeight :=
  if part.lowest ≤ value ∧ value ≤ part.highest then
    if part.highest - part.lowest = 0 then
      none
    else
      let weight_high := (value - part.lowest) / (part.highest - part.lowest)
      some ⟨part.low, part.high, 1 - weight_high, weight_high⟩
  else
    none

/-- The inner scan of `calculate_weights_for_target` (`macrotargets.py`,
lines 81-85): parts are tried in order and the first non-`None` weight wins
(a returned weight dict is always non-empty, hence truthy in Python). -/
def scan_parts (parts : List MacroPart) (value : ℚ) : Option MacroWeight :=
  match parts with
  | [] => none
  | p :: ps =>
    match calculate_weight_for_part p value with
    | some w => some w
    | none => scan_parts ps value

/-- Spec-side description of C8's selection rule: the first part whose
`[lowest, highest]` range contains the value. -/
def firstContainingPart (parts : List MacroPart) (value : ℚ) : Option MacroPart :=
  parts.find? (fun p => decide (p.lowest ≤ value ∧ value ≤ p.highest))

/-- The weight record C8's formula assigns to a part. -/
def partFormulaWeight (p : MacroPart) (value : ℚ) : MacroWeight :=
  let weight_high := (value - p.lowest) / (p.highest - p.lowest)
  ⟨p.low, p.high, 1 - weight_high, weight_high⟩

/-! ## Target-modifier evaluation
    (`siborg/create/human/modifiers.py`, `_get_blendshapes_for_target`) -/

/-- The customdata record a `TargetModifier` stores
(`scripts/buildusd/modifiers.py`): the numeric range plus the optional
blendshape names (two-sided modifiers carry `min_blend`/`max_blend`,
one-sided modifiers carry `blend`). -/
structure ModifierData where
  min_val : ℚ
  max_val : ℚ
  min_blend : Option String
  max_blend : Option String
  blend : Option String
deriving DecidableEq, Repr

/-- `_get_blendshapes_for_target(modifier_data, v)` from
`siborg/create/human/modifiers.py` (lines 9-34): maps a scalar slider value
to one blendshape name and weight, or raises `ValueError` when neither key
set is present. -/
def get_blendshapes_for_target (d : ModifierData) (v : ℚ) :
    Except String (String × ℚ) :=
  if d.max_blend.isSome ∧ d.min_blend.isSome then
    if v > 0 then
      let mb := d.max_blend.getD ""
      if v < d.max_val then .ok (mb, v) else .ok (mb, d.max_val)
    else
      let mnb := d.min_blend.getD ""
      if v > d.min_val then .ok (mnb, -v) else .ok (mnb, d.min_val)
  else if d.blend.isSome then
    let b := d.blend.getD ""
    if d.min_val < v ∧ v < d.max_val then .ok (b, v)
    else if v ≤ d.min_val then .ok (b, d.min_val)
    else .ok (b, d.max_val)
  else
    .error "Target modifier data must contain either a max_blend and min_blend or blend key."

/-! ## Rig construction (`scripts/buildusd/skeletons.py`)

All transforms the builder produces are pure 4×4 translation matrices, so a
transform is modelled by its translation vector; composition of two such
transforms is vector addition. -/

/-- A bone of the rig tree built by `build_tree`: a name, the indices of its
head-vertex group, and its child bones. Names are assumed to be valid
identifiers (`Tf.MakeValidIdentifier` is modelled as the identity). -/
inductive Bone where
  | mk (name : String) (headIdx : List Nat) (children : List Bone)

def Bone.name : Bone → String
  | .mk n _ _ => n

def Bone.headIdx : Bone → List Nat
  | .mk _ h _ => h

def Bone.children : Bone → List Bone
  | .mk _ _ cs => cs

/-- Numpy fancy indexing `mesh_verts[idxs]` (indices are assumed in range;
an out-of-range index selects the zero vector where Python would raise). -/
def gather (mesh : List Vec3) (idxs : List Nat) : List Vec3 :=
  idxs.map (fun i => mesh.getD i Vec3.zero)

/-- `np.mean(vs, axis=0)` for a nonempty list of vectors (on an empty list
numpy yields nan; here the value is the zero vector and is never relied on). -/
def centroid (vs : List Vec3) : Vec3 :=
  Vec3.smul (1 / (vs.length : ℚ)) (Vec3.lsum vs)

/-- `compute_transforms(head_vertices, parent_vertices)` from
`skeletons.py` (lines 91-106), with translation matrices represented by
their translation vectors: the bind transform translates to the centroid of
`head_vertices`; the rest transform translates to that centroid minus the
centroid of `parent_vertices` when a parent is given. Returns
`(rest, bind)` in the source's order. -/
def compute_transforms (head_vertices : List Vec3)
    (parent_vertices : Option (List Vec3)) : Vec3 × Vec3 :=
  let head_position := centroid head_vertices
  let bind_transform := head_position
  let local_head :=
    match parent_vertices with
    | some pv => Vec3.sub head_position (centroid pv)
    | none => head_position
  (local_head, bind_transform)

/-- One joint record produced by `create_skeleton`: its joint path, name,
parent path (none for the root) and its bind (world) and rest (local)
translation. -/
structure JointEntry where
  path : String
  name : String
  parentPath : Option String
  bind : Vec3
  rest : Vec3
deriving DecidableEq, Repr

/-- The inner `for neighbor in v[1]["children"].items()` loop of
`create_skeleton` (lines 66-81): each not-yet-visited child is marked
visited, appended to the traversal queue, and given a bind transform at the
centroid of its own head group and a rest transform relative to the centroid
of the parent's head group. Returns the updated visited list, the queue
additions, and the new joint entries, in source order. -/
def processChildren (mesh_verts : List Vec3) (parentPath : String)
    (parentHead : List Nat) :
    List Bone → List String → List String × List (String × Bone) × List JointEntry
  | [], visited => (visited, [], [])
  | c :: cs, visited =>
    if c.name ∈ visited then
      processChildren mesh_verts parentPath parentHead cs visited
    else
      let childPath := parentPath ++ "/" ++ c.name
      let xf := compute_transforms (gather mesh_verts c.headIdx)
        (some (gather mesh_verts parentHead))
      let e : JointEntry := ⟨childPath, c.name, some parentPath, xf.2, xf.1⟩
      let r := processChildren mesh_verts parentPath parentHead cs (visited ++ [c.name])
      (r.1, (childPath, c) :: r.2.1, e :: r.2.2)

mutual

/-- Size of a bone tree, used as the traversal's termination measure. -/
def boneSize : Bone → Nat
  | .mk _ _ cs => 1 + boneListSize cs

/-- Total size of a list of bone trees. -/
def boneListSize : List Bone → Nat
  | [] => 0
  | b :: bs => boneSize b + boneListSize bs

end

/-- Measure for the breadth-first traversal: the total size of the bones
still queued. -/
def queueMeasure (q : List (String × Bone)) : Nat :=
  (q.map (fun p => boneSize p.2)).sum

theorem boneListSize_eq_sum (cs : List Bone) :
    boneListSize cs = (cs.map boneSize).sum := by
  induction cs with
  | nil => simp [boneListSize]
  | cons c cs ih => simp [boneListSize, ih]

theorem processChildren_queue_le (mesh_verts : List Vec3) (parentPath : String)
    (parentHead : List Nat) (cs : List Bone) (visited : List String) :
    queueMeasure (processChildren mesh_verts parentPath parentHead cs visited).2.1 ≤
      (cs.map boneSize).sum := by
  induction cs generalizing visited with
  | nil => simp [processChildren, queueMeasure]
  | cons c cs ih =>
    simp only [processChildren]
    by_cases h : c.name ∈ visited
    · simp only [if_pos h, List.map_cons, List.sum_cons]
      exact le_trans (ih visited) (Nat.le_add_left _ _)
    · simp only [if_neg h, List.map_cons, List.sum_cons, queueMeasure, List.sum_cons]
      have := ih (visited ++ [c.name])
      simp only [queueMeasure] at this
      omega

theorem children_boneSize_lt (b : Bone) : boneListSize b.children < boneSize b := by
  cases b with
  | mk n h cs => simp [Bone.children, boneSize]

/-- The `while queue:` breadth-first traversal of `create_skeleton`
(lines 63-81): pop the front joint, process its children, push them to the
back of the queue, and continue. -/
def bfsAux (mesh_verts : List Vec3) (queue : List (String × Bone))
    (visited : List String) : List JointEntry :=
  match queue with
  | [] => []
  | (path, b) :: rest =>
    let r := processChildren mesh_verts path b.headIdx b.children visited
    r.2.2 ++ bfsAux mesh_verts (rest ++ r.2.1) r.1
termination_by queueMeasure queue
decreasing_by
  simp only [queueMeasure, List.map_append, List.sum_append, List.map_cons,
    List.sum_cons]
  have h1 := processChildren_queue_le mesh_verts path b.headIdx b.children visited
  have h2 := children_boneSize_lt b
  rw [boneListSize_eq_sum] at h2
  simp only [queueMeasure] at h1
  omega

/-- `create_skeleton` (`skeletons.py`, lines 36-88), restricted to the joint
data it computes (names, paths, bind and rest transforms). The root is the
last parentless bone of the rig dict (line 44); the input list holds exactly
the parentless top-level bones produced by `build_tree(None, ...)`. The root
transforms faithfully mirror line 56,
`compute_transforms(mesh_verts, root_vertices)`: the *entire* vertex array is
passed as the `head_vertices` argument and the root's own head group as the
`parent_vertices` argument. -/
def create_skeleton (mesh_verts : List Vec3) (rig : List Bone) :
    List JointEntry :=
  match rig.getLast? with
  | none => []
  | some root =>
    let xf := compute_transforms mesh_verts (some (gather mesh_verts root.headIdx))
    let rootEntry : JointEntry := ⟨root.name, root.name, none, xf.2, xf.1⟩
    rootEntry :: bfsAux mesh_verts [(root.name, root)] []

/-! ## Skin-weight resolution (`scripts/buildusd/skeletons.py`,
    `vertices_to_weights`, lines 109-132) -/

/-- Elementwise IEEE division as numpy performs it: dividing by zero yields a
non-finite value (nan or ±inf), modelled as `none`; numpy emits a runtime
warning but no exception. -/
def npDiv (w s : ℚ) : Option ℚ :=
  if s = 0 then none else some (w / s)

/-- Dictionary lookup `weights_data[joint]` over an association list. -/
def alist_lookup {α : Type} : List (String × α) → String → Option α
  | [], _ => none
  | p :: rest, s => if p.1 = s then some p.2 else alist_lookup rest s

/-- `rows[i].append(a)`: append `a` to the `i`-th row (indices are assumed in
range; an out-of-range index is a no-op where Python would raise). -/
def appendAt {α : Type} : List (List α) → Nat → α → List (List α)
  | [], _, _ => []
  | r :: rs, 0, a => (r ++ [a]) :: rs
  | r :: rs, Nat.succ i, a => r :: appendAt rs i a

/-- The insertion double loop of `vertices_to_weights` (lines 116-125):
for each joint of `joint_names` present in the weights table, append
`joint_names.index(joint)` and the weight to the vertex's influence lists. -/
def insertInfluences (joint_names : List String)
    (weights_data : List (String × List (Nat × ℚ))) (numVerts : Nat) :
    List (List Nat) × List (List ℚ) :=
  joint_names.foldl
    (fun acc joint =>
      match alist_lookup weights_data joint with
      | none => acc
      | some entries =>
        entries.foldl
          (fun acc2 vertex_data =>
            (appendAt acc2.1 vertex_data.1 (joint_names.findIdx (· == joint)),
             appendAt acc2.2 vertex_data.1 vertex_data.2))
          acc)
    (List.replicate numVerts [], List.replicate numVerts [])

/-- `vertices_to_weights` (lines 109-132): insert influences, pad every row
with `(0, 0.0)` to the global maximum row length, then divide every vertex's
weights by their row sum (`joint_weights / np.sum(joint_weights, axis=1)[:, None]`,
performed unconditionally — a zero row sum produces non-finite entries).
Returns the rectangular `(joint_indices, joint_weights)` arrays.
`numVerts` is assumed positive (Python's `max` raises on an empty sequence). -/
def vertices_to_weights (joint_names : List String)
    (weights_data : List (String × List (Nat × ℚ))) (numVerts : Nat) :
    List (List Nat) × List (List (Option ℚ)) :=
  let rows := insertInfluences joint_names weights_data numVerts
  let max_len := (rows.1.map List.length).foldl max 0
  let joint_indices := rows.1.map (fun x => x ++ List.replicate (max_len - x.length) 0)
  let joint_weights := rows.2.map (fun x => x ++ List.replicate (max_len - x.length) 0)
  let normalized := joint_weights.map (fun row => row.map (fun w => npDiv w row.sum))
  (joint_indices, normalized)

/-- All weights stored in all rows are nonnegative. -/
def RowsNonneg (rows : List (List ℚ)) : Prop :=
  ∀ r ∈ rows, ∀ w ∈ r, 0 ≤ w

theorem alist_lookup_mem {α : Type} {l : List (String × α)} {s : String} {v : α}
    (h : alist_lookup l s = some v) : ∃ k, (k, v) ∈ l := by
  induction l with
  | nil => simp [alist_lookup] at h
  | cons p rest ih =>
    simp only [alist_lookup] at h
    by_cases hk : p.1 = s
    · rw [if_pos hk] at h
      exact ⟨p.1, by simp [← Option.some_inj.mp h]⟩
    · rw [if_neg hk] at h
      obtain ⟨k, hm⟩ := ih h
      exact ⟨k, List.mem_cons_of_mem _ hm⟩

theorem appendAt_nonneg {rows : List (List ℚ)} {a : ℚ} (i : Nat)
    (h : RowsNonneg rows) (ha : 0 ≤ a) : RowsNonneg (appendAt rows i a) := by
  induction rows generalizing i with
  | nil => simpa [appendAt] using h
  | cons r rs ih =>
    have hr : ∀ w ∈ r, 0 ≤ w := h r (List.mem_cons_self r rs)
    have hrs : RowsNonneg rs := fun r' hr' => h r' (List.mem_cons_of_mem r hr')
    cases i with
    | zero =>
      intro r' hr' w hw
      rcases List.mem_cons.mp hr' with rfl | hmem
      · rcases List.mem_append.mp hw with hw' | hw'
        · exact hr w hw'
        · rw [List.mem_singleton.mp hw']; exact ha
      · exact hrs r' hmem w hw
    | succ n =>
      intro r' hr' w hw
      rcases List.mem_cons.mp hr' with rfl | hmem
      · exact hr w hw
      · exact ih n hrs r' hmem w hw

theorem insertInfluences_nonneg (joint_names : List String)
    (weights_data : List (String × List (Nat × ℚ))) (numVerts : Nat)
    (hw : ∀ p ∈ weights_data, ∀ e ∈ p.2, 0 ≤ e.2) :
    RowsNonneg (insertInfluences joint_names weights_data numVerts).2 := by
  have hstep : ∀ (entries : List (Nat × ℚ)), (∀ e ∈ entries, 0 ≤ e.2) →
      ∀ (acc : List (List Nat) × List (List ℚ)) (jpos : Nat),
      RowsNonneg acc.2 →
      RowsNonneg (entries.foldl
        (fun acc2 vertex_data =>
          (appendAt acc2.1 vertex_data.1 jpos,
           appendAt acc2.2 vertex_data.1 vertex_data.2)) acc).2 := by
    intro entries
    induction entries with
    | nil => intro _ acc _ hacc; simpa using hacc
    | cons e es ih =>
      intro he acc jpos hacc
      simp only [List.foldl_cons]
      exact ih (fun x hx => he x (List.mem_cons_of_mem e hx)) _ jpos
        (appendAt_nonneg e.1 hacc (he e (List.mem_cons_self e es)))
  have hmain : ∀ (jns : List String) (acc : List (List Nat) × List (List ℚ)),
      RowsNonneg acc.2 →
      RowsNonneg (jns.foldl
        (fun acc joint =>
          match alist_lookup weights_data joint with
          | none => acc
          | some entries =>
            entries.foldl
              (fun acc2 vertex_data =>
                (appendAt acc2.1 vertex_data.1 (joint_names.findIdx (· == joint)),
                 appendAt acc2.2 vertex_data.1 vertex_data.2))
              acc) acc).2 := by
    intro jns
    induction jns with
    | nil => intro acc hacc; simpa using hacc
    | cons j js ih =>
      intro acc hacc
      simp only [List.foldl_cons]
      apply ih
      cases hlook : alist_lookup weights_data j with
      | none => simpa [hlook] using hacc
      | some entries =>
        simp only [hlook]
        obtain ⟨k, hk⟩ := alist_lookup_mem hlook
        exact hstep entries (fun e he => hw (k, entries) hk e he) acc _ hacc
  apply hmain
  intro r hr w hw'
  rw [List.eq_of_mem_replicate hr] at hw'
  cases hw'

/-! ## Target import (`scripts/buildusd/targets.py`) -/

/-- One whitespace-separated field of a target delta file, already lexed:
either a field that parses as a float or one that does not. -/
inductive Token where
  | num (q : ℚ)
  | nonNum (s : String)
deriving DecidableEq, Repr

def Token.isNum : Token → Bool
  | .num _ => true
  | .nonNum _ => false

def Token.val : Token → ℚ
  | .num q => q
  | .nonNum _ => 0

/-- The two failure modes of `np.loadtxt` relevant to the importer: an empty
file raises a `UserWarning` (turned into an exception by
`warnings.simplefilter("error")`), and a non-numeric field raises a
`ValueError`. -/
inductive LoadErr where
  | emptyWarning
  | valueError
deriving DecidableEq, Repr

/-- `np.loadtxt` on a target delta file whose comment and blank lines are
already stripped: an empty file is a warning, a non-numeric field a
`ValueError`, otherwise the parsed rows of floats. -/
def loadtxt (rows : List (List Token)) : Except LoadErr (List (List ℚ)) :=
  if rows.isEmpty then .error .emptyWarning
  else if rows.all (fun r => r.all Token.isNum) then
    .ok (rows.map (fun r => r.map Token.val))
  else .error .valueError

/-- The blendshape record `mhtarget_to_blendshapes` registers: the first
column of the parsed file as point indices (the `astype(np.int32)` cast is
elided; values are kept as parsed) and the remaining columns as offsets. -/
structure ImportedBlendshape where
  pointIndices : List ℚ
  offsets : List (List ℚ)
deriving DecidableEq, Repr

/-- The parse section of `mhtarget_to_blendshapes` (`targets.py`,
lines 138-156): `np.loadtxt` runs under `warnings.simplefilter("error")`
inside `try: ... except Warning:`; a `Warning` (empty file) is printed and
the target skipped (`return`, no blendshape registered), while a
`ValueError` (non-numeric data) is *not* caught and propagates; on success
the first column becomes the point indices and the rest the offsets. -/
def mhtarget_to_blendshapes (rows : List (List Token)) :
    Except String (Option ImportedBlendshape) :=
  match loadtxt rows with
  | .error .emptyWarning => .ok none
  | .error .valueError => .error "could not convert string to float"
  | .ok raw => .ok (some ⟨raw.map (fun r => r.headD 0), raw.map (fun r => r.drop 1)⟩)

/-- The `import_targets` walk (`targets.py`, lines 194-202): each target file
is imported in turn with no exception handling, so an uncaught error from one
file aborts the rest of the walk. Returns the registered blendshapes. -/
def import_targets : List (List (List Token)) → Except String (List ImportedBlendshape)
  | [] => .ok []
  | f :: fs =>
    match mhtarget_to_blendshapes f with
    | .error e => .error e
    | .ok none => import_targets fs
    | .ok (some b) =>
      match import_targets fs with
      | .error e => .error e
      | .ok bs => .ok (b :: bs)

/-! ## Skeltarget separation (`scripts/separate_skeltargets.py`) -/

/-- The state `calculate_skeltarget_verts` reads and writes on the USD stage:
the bound skeleton animation's transforms at time 0, the skeleton's rest
transforms (what `skelQuery.ComputeJointLocalTransforms(0, atRest=True)`
returns), and the authored `points` attribute of the body mesh. `M` is the
type of joint transforms (4×4 matrices in the source). -/
structure SkelScene (M : Type) where
  animXforms : List M
  restXforms : List M
  points : List Vec3

/-- `calculate_skeltarget_verts` (`separate_skeltargets.py`, lines 67-132),
as a state-passing function: set the animation transforms to the pose decoded
from the `.skeltarget` file (line 113), skin the mesh under that pose
(line 126, `applyJointAnimation`, treated as an opaque library computation
over the scene state), then reset the animation transforms to the joints'
local rest-pose transforms (lines 129-130) and return the skinned points. -/
def calculate_skeltarget_verts {M : Type} (skin : SkelScene M → List Vec3)
    (pose : List M) (st : SkelScene M) : List Vec3 × SkelScene M :=
  let posed : SkelScene M := { st with animXforms := pose }
  let skinned_points := skin posed
  let restored : SkelScene M := { posed with animXforms := posed.restXforms }
  (skinned_points, restored)

/-- `separate_blendshape` (`separate_skeltargets.py`, lines 176-203), with
the skeleton-deformed point set (the result of `calculate_skeltarget_verts`)
passed in: the skeletal-deformation offset is the skinned points minus the
default points over the whole vertex array; the corrected offsets are the
stored blendshape offsets minus that offset sampled at the blendshape's
stored point indices; the point-indices attribute is re-set to the same
index array. Returns the new `(offsets, pointIndices)` attribute values. -/
def separate_blendshape (default_points skel_deformation : List Vec3)
    (offsets : List Vec3) (indices : List Nat) : List Vec3 × List Nat :=
  let skeletal_deformation_offset :=
    List.zipWith Vec3.sub skel_deformation default_points
  let corrected_offsets :=
    List.zipWith
      (fun off i => Vec3.sub off (skeletal_deformation_offset.getD i Vec3.zero))
      offsets indices
  (corrected_offsets, indices)

/-- The offsets/pointIndices attributes of one blendshape prim. -/
structure BlendshapeState where
  name : String
  offsets : List Vec3
  pointIndices : List Nat
deriving DecidableEq, Repr

/-- One blendshape of the `__main__` batch of `separate_skeltargets.py`,
together with the scene data its separation reads: whether
`blend_query.ComputeDeformedPoints` succeeds for it (line 256), the default
mesh points, and the skeleton-only deformed points. -/
structure TargetCase where
  bs : BlendshapeState
  deformSucceeds : Bool
  default_points : List Vec3
  skel_deformation : List Vec3

/-- The tail of `compute_blendshape_points` (lines 256-273): the deformed
points when `ComputeDeformedPoints` succeeds, otherwise the raised
`ValueError("Failed to compute deformed points")`. -/
def compute_blendshape_points (succeeded : Bool) (new_points : List Vec3) :
    Except String (List Vec3) :=
  if succeeded then .ok new_points else .error "Failed to compute deformed points"

/-- One iteration of the `__main__` loop (lines 323-332):
`blendshape_to_skeltarget` first computes the deformed points (raising on
failure, before anything is written), then `separate_blendshape` overwrites
the blendshape's offsets and point indices. -/
def process_one_target (t : TargetCase) : Except String BlendshapeState :=
  match compute_blendshape_points t.deformSucceeds t.default_points with
  | .error e => .error e
  | .ok _ =>
    let r := separate_blendshape t.default_points t.skel_deformation
      t.bs.offsets t.bs.pointIndices
    .ok { t.bs with offsets := r.1, pointIndices := r.2 }

/-- The blendshape state a successful separation leaves behind. -/
def separatedState (t : TargetCase) : BlendshapeState :=
  { t.bs with
    offsets := (separate_blendshape t.default_points t.skel_deformation
      t.bs.offsets t.bs.pointIndices).1,
    pointIndices := (separate_blendshape t.default_points t.skel_deformation
      t.bs.offsets t.bs.pointIndices).2 }

/-- The `__main__` batch loop (lines 323-332). It has no `try`/`except`: a
raised `ValueError` propagates, so the failing blendshape and every
blendshape after it keep their original attributes and the loop stops with
the surfaced error. Returns the final state of every blendshape in order plus
the uncaught error, if any. -/
def run_batch : List TargetCase → List BlendshapeState × Option String
  | [] => ([], none)
  | t :: ts =>
    match process_one_target t with
    | .ok bs' =>
      let r := run_batch ts
      (bs' :: r.1, r.2)
    | .error e => (t.bs :: ts.map (·.bs), some e)

end OvMakehuman

namespace OvMakehuman

/-- **C1.** `separate_blendshape` re-sets the point-indices attribute to the
originally stored indices, stores exactly one corrected offset per original
offset (the sparse representation is preserved and no other vertices are
stored), and each stored offset becomes the raw offset minus the
skeletal-deformation offset (skeleton-only skinned position minus base
position) evaluated at the blendshape's originally stored point index. -/
theorem separate_blendshape_corrects_offsets_sparsely
    (default_points skel_deformation : List Vec3)
    (offsets : List Vec3) (indices : List Nat)
    (hlen : offsets.length = indices.length)
    (hsd : skel_deformation.length = default_points.length)
    (hidx : ∀ i ∈ indices, i < default_points.length) :
    (separate_blendshape default_points skel_deformation offsets indices).2 =
      indices ∧
    (separate_blendshape default_points skel_deformation offsets indices).1.length =
      offsets.length ∧
    ∀ j, j < offsets.length →
      (separate_blendshape default_points skel_deformation offsets indices).1.getD
          j Vec3.zero =
        Vec3.sub (offsets.getD j Vec3.zero)
          (Vec3.sub (skel_deformation.getD (indices.getD j 0) Vec3.zero)
            (default_points.getD (indices.getD j 0) Vec3.zero)) := by
  refine ⟨rfl, ?_, ?_⟩
  · simp [separate_blendshape, hlen]
  · intro j hj
    have hj' : j < indices.length := hlen ▸ hj
    have hmem : indices[j] ∈ indices := List.getElem_mem hj'
    have hi : indices[j] < default_points.length := hidx _ hmem
    have hisd : indices[j] < skel_deformation.length := by rw [hsd]; exact hi
    have hjz : j < (List.zipWith
        (fun off i => Vec3.sub off
          ((List.zipWith Vec3.sub skel_deformation default_points).getD i Vec3.zero))
        offsets indices).length := by
      rw [List.length_zipWith]; omega
    have hizip : indices[j] <
        (List.zipWith Vec3.sub skel_deformation default_points).length := by
      rw [List.length_zipWith]; omega
    simp only [separate_blendshape]
    rw [List.getD_eq_getElem _ _ hj']
    rw [List.getD_eq_getElem _ _ hjz, List.getElem_zipWith]
    rw [List.getD_eq_getElem _ _ hj]
    rw [List.getD_eq_getElem _ _ hizip, List.getElem_zipWith]
    rw [List.getD_eq_getElem _ _ hisd, List.getD_eq_getElem _ _ hi]

/-- Witness for C1: a two-vertex mesh whose vertex 1 is skeletally displaced
by `(0,1,0)`; the single stored offset `(1,1,1)` at point index 1 becomes
`(1,0,1)` and the point indices stay `[1]`. -/
theorem separate_blendshape_corrects_offsets_sparsely_witness :
    (separate_blendshape [⟨0,0,0⟩, ⟨0,1,0⟩] [⟨0,0,0⟩, ⟨0,2,0⟩]
        [⟨1,1,1⟩] [1]).2 = [1] ∧
    (separate_blendshape [⟨0,0,0⟩, ⟨0,1,0⟩] [⟨0,0,0⟩, ⟨0,2,0⟩]
        [⟨1,1,1⟩] [1]).1.getD 0 Vec3.zero =
      Vec3.sub (⟨1,1,1⟩ : Vec3) (Vec3.sub ⟨0,2,0⟩ ⟨0,1,0⟩) := by
  have h := separate_blendshape_corrects_offsets_sparsely
    [⟨0,0,0⟩, ⟨0,1,0⟩] [⟨0,0,0⟩, ⟨0,2,0⟩] [⟨1,1,1⟩] [1]
    (by norm_num) (by norm_num) (by norm_num)
  refine ⟨h.1, ?_⟩
  have h2 := h.2.2 0 (by norm_num)
  simpa using h2

/-- **C9.** `calculate_skeltarget_verts` leaves the skeleton's bound
animation transforms equal to the joints' local rest-pose transforms, for any
skinning computation, pose and initial scene state; consequently running it
again on the resulting scene returns the same skinned points and the same
final scene, so the temporary pose neither persists nor accumulates. -/
theorem calculate_skeltarget_verts_resets_to_rest {M : Type}
    (skin : SkelScene M → List Vec3) (pose : List M) (st : SkelScene M) :
    (calculate_skeltarget_verts skin pose st).2.animXforms = st.restXforms ∧
    (calculate_skeltarget_verts skin pose
        (calculate_skeltarget_verts skin pose st).2).1 =
      (calculate_skeltarget_verts skin pose st).1 ∧
    (calculate_skeltarget_verts skin pose
        (calculate_skeltarget_verts skin pose st).2).2 =
      (calculate_skeltarget_verts skin pose st).2 :=
  ⟨rfl, rfl, rfl⟩

/-- **C5 (corrected).** When `ComputeDeformedPoints` fails for one target,
the batch loop of `separate_skeltargets.py` surfaces the
`ValueError("Failed to compute deformed points")` and the failing target's
offsets are retained unmodified (nothing is written before the raise) — but
the loop body has no `try`/`except`, so the exception also aborts every
remaining target in the batch: their blendshapes are all left in their
original state and never separated. -/
theorem skinning_failure_aborts_whole_batch (pre : List TargetCase)
    (t : TargetCase) (post : List TargetCase)
    (hpre : ∀ u ∈ pre, u.deformSucceeds = true)
    (ht : t.deformSucceeds = false) :
    run_batch (pre ++ t :: post) =
      (pre.map separatedState ++ t.bs :: post.map (·.bs),
       some "Failed to compute deformed points") := by
  induction pre with
  | nil =>
    simp only [List.nil_append, List.map_nil, run_batch, process_one_target,
      compute_blendshape_points, ht]
    rfl
  | cons u pre ih =>
    have hu : u.deformSucceeds = true := hpre u (List.mem_cons_self u pre)
    have hpre' : ∀ v ∈ pre, v.deformSucceeds = true := fun v hv =>
      hpre v (List.mem_cons_of_mem u hv)
    simp only [List.cons_append, run_batch, process_one_target,
      compute_blendshape_points, hu, if_true, List.append_eq]
    rw [ih hpre']
    simp [separatedState]

/-- Witness for C5's theorem: a batch whose single target fails leaves that
target's original offsets in place and surfaces the error. -/
theorem skinning_failure_aborts_whole_batch_witness :
    run_batch [⟨⟨"t", [⟨2,2,2⟩], [0]⟩, false, [⟨0,0,0⟩], [⟨0,1,0⟩]⟩] =
      ([⟨"t", [⟨2,2,2⟩], [0]⟩], some "Failed to compute deformed points") := by
  have h := skinning_failure_aborts_whole_batch []
    ⟨⟨"t", [⟨2,2,2⟩], [0]⟩, false, [⟨0,0,0⟩], [⟨0,1,0⟩]⟩ []
    (by intro u hu; cases hu) rfl
  simpa using h

/-- **C5 counterexample.** The claim's "non-fatal to the processing of the
remaining targets" is false: in a batch of a failing target followed by a
healthy one, the healthy target is left in its original state — although the
same target, processed in a batch by itself, is separated into a different
state. The exception is fatal to the whole batch. -/
theorem skinning_failure_not_nonfatal_counterexample :
    run_batch [⟨⟨"bad", [⟨2,2,2⟩], [0]⟩, false, [⟨0,0,0⟩], [⟨0,1,0⟩]⟩,
               ⟨⟨"good", [⟨1,1,1⟩], [0]⟩, true, [⟨0,0,0⟩], [⟨0,1,0⟩]⟩] =
      ([⟨"bad", [⟨2,2,2⟩], [0]⟩, ⟨"good", [⟨1,1,1⟩], [0]⟩],
       some "Failed to compute deformed points") ∧
    run_batch [⟨⟨"good", [⟨1,1,1⟩], [0]⟩, true, [⟨0,0,0⟩], [⟨0,1,0⟩]⟩] =
      ([⟨"good", [⟨1,0,1⟩], [0]⟩], none) ∧
    (⟨"good", [⟨1,0,1⟩], [0]⟩ : BlendshapeState) ≠ ⟨"good", [⟨1,1,1⟩], [0]⟩ := by
  refine ⟨?_, ?_, by decide⟩
  · simp [run_batch, process_one_target, compute_blendshape_points]
  · simp [run_batch, process_one_target, compute_blendshape_points,
      separate_blendshape, Vec3.sub, Vec3.zero]

theorem sum_map_div (r : List ℚ) (c : ℚ) :
    (r.map (fun w => w / c)).sum = r.sum / c := by
  induction r with
  | nil => simp
  | cons a as ih => simp [ih, add_div]

/-- Normalizing one nonnegative weight row: a zero-sum row becomes all
non-finite entries; a positive-sum row becomes weights in `[0, 1]` summing
to 1. -/
theorem normalizeRow_spec (r : List ℚ) (hnn : ∀ w ∈ r, 0 ≤ w) :
    (∀ e ∈ r.map (fun w => npDiv w r.sum), e = none) ∨
    (((r.map (fun w => npDiv w r.sum)).map (fun e => e.getD 0)).sum = 1 ∧
      ∀ e ∈ r.map (fun w => npDiv w r.sum), ∃ q, e = some q ∧ 0 ≤ q ∧ q ≤ 1) := by
  by_cases hs : r.sum = 0
  · left
    intro e he
    rw [List.mem_map] at he
    obtain ⟨w, _, rfl⟩ := he
    simp [npDiv, hs]
  · right
    have hpos : 0 < r.sum := lt_of_le_of_ne (List.sum_nonneg hnn) (Ne.symm hs)
    constructor
    · rw [List.map_map]
      have hfun : ((fun e => Option.getD e 0) ∘ fun w => npDiv w r.sum) =
          fun w => w / r.sum := by
        funext w; simp [npDiv, hs]
      rw [hfun, sum_map_div, div_self hs]
    · intro e he
      rw [List.mem_map] at he
      obtain ⟨w, hwmem, rfl⟩ := he
      refine ⟨w / r.sum, by simp [npDiv, hs], div_nonneg (hnn w hwmem) hpos.le, ?_⟩
      rw [div_le_one hpos]
      exact List.single_le_sum hnn w hwmem

/-- **C4 (corrected).** Under the intended use of `vertices_to_weights`
(nonnegative weights in the weights file), every output row whose influence
weights have a positive total is normalized: its weights are in `[0, 1]` and
sum to exactly 1. But a vertex whose influence weights total zero is *not*
left with all-zero weights: the unconditional division produces non-finite
(nan) entries for its entire row. -/
theorem vertices_to_weights_rows_normalized_or_nan
    (joint_names : List String)
    (weights_data : List (String × List (Nat × ℚ))) (numVerts : Nat)
    (hw : ∀ p ∈ weights_data, ∀ e ∈ p.2, 0 ≤ e.2) :
    ∀ row ∈ (vertices_to_weights joint_names weights_data numVerts).2,
      (∀ e ∈ row, e = none) ∨
      ((row.map (fun e => e.getD 0)).sum = 1 ∧
        ∀ e ∈ row, ∃ q, e = some q ∧ 0 ≤ q ∧ q ≤ 1) := by
  intro row hrow
  simp only [vertices_to_weights, List.mem_map] at hrow
  obtain ⟨r, ⟨r0, hr0, hpad⟩, hnorm⟩ := hrow
  subst hpad
  subst hnorm
  have hnn0 := insertInfluences_nonneg joint_names weights_data numVerts hw r0 hr0
  apply normalizeRow_spec
  intro w hw'
  rcases List.mem_append.mp hw' with h | h
  · exact hnn0 w h
  · rw [List.eq_of_mem_replicate h]

/-- Witness for C4's theorem: on the one-joint, one-vertex input
`joint_names = ["a"]`, `weights = {"a": [(0, 1)]}` the single output row is
`[1]`, which is normalized (sums to 1, entries in `[0,1]`). -/
theorem vertices_to_weights_rows_normalized_or_nan_witness :
    (∀ e ∈ [some (1:ℚ)], e = none) ∨
    ((([some (1:ℚ)]).map (fun e => e.getD 0)).sum = 1 ∧
      ∀ e ∈ [some (1:ℚ)], ∃ q, e = some q ∧ 0 ≤ q ∧ q ≤ 1) :=
  vertices_to_weights_rows_normalized_or_nan ["a"] [("a", [(0, 1)])] 1
    (by norm_num) [some 1] (by
      norm_num [vertices_to_weights, insertInfluences, appendAt, alist_lookup,
        npDiv, List.findIdx, List.findIdx.go])

/-- **C4 counterexample.** With one joint `"a"` weighting only vertex 0 and
two vertices, vertex 1 has zero total weight; `vertices_to_weights` leaves
its padded row as `[none]` (a non-finite nan entry from `0/0`), not the
all-zero row `[some 0]` the claim states, and that row does not sum to 1. -/
theorem vertices_to_weights_zero_row_not_zeroed :
    (vertices_to_weights ["a"] [("a", [(0, 1)])] 2).2 = [[some 1], [none]] ∧
    ([(none : Option ℚ)] : List (Option ℚ)) ≠ [some 0] := by
  constructor
  · norm_num [vertices_to_weights, insertInfluences, appendAt, alist_lookup,
      npDiv, List.findIdx, List.findIdx.go]
  · decide

/-- **C6 (corrected, part 1: amended claim).** An empty (zero-length) target
delta file raises a `Warning` from `np.loadtxt`, which `mhtarget_to_blendshapes`
catches: the target is skipped with a logged warning, no blend shape is
registered for it, and `import_targets` continues with the remaining files
exactly as if the file were absent. -/
theorem empty_target_skipped_import_continues :
    mhtarget_to_blendshapes [] = .ok none ∧
    ∀ fs, import_targets ([] :: fs) = import_targets fs := by
  exact ⟨rfl, fun fs => rfl⟩

/-- **C6 counterexample.** A malformed (non-numeric) target file is fatal,
contrary to the claim: `np.loadtxt` raises `ValueError`, which the
`except Warning:` handler does not catch, so the whole import aborts — the
following (empty) file is never reached and nothing is registered. -/
theorem malformed_target_aborts_import :
    import_targets [[[Token.nonNum "x", Token.num 1, Token.num 2, Token.num 3]], []] =
      .error "could not convert string to float" := by
  rfl

/-- **C8.** For part lists whose parts all have nonzero span, the scan of
`calculate_weights_for_target` returns exactly the weight record that the
first part containing the value determines, with
`weight_high = (value - lowest) / (highest - lowest)` and
`weight_low = 1 - weight_high`, and returns nothing when no part contains
the value; in particular the single part `{lowest := 0, highest := 1/2,
low := "young", high := "old"}` at value `1/4` yields weights `(1/2, 1/2)`
and at value `0` yields `weight_high = 0`. -/
theorem scan_parts_first_containing_formula :
    (∀ (parts : List MacroPart) (value : ℚ),
      (∀ p ∈ parts, p.highest - p.lowest ≠ 0) →
      scan_parts parts value =
        (firstContainingPart parts value).map (fun p => partFormulaWeight p value)) ∧
    scan_parts [⟨0, 1/2, "young", "old"⟩] (1/4) =
      some ⟨"young", "old", 1/2, 1/2⟩ ∧
    scan_parts [⟨0, 1/2, "young", "old"⟩] 0 =
      some ⟨"young", "old", 1, 0⟩ := by
  refine ⟨?_, by norm_num [scan_parts, calculate_weight_for_part], by
    norm_num [scan_parts, calculate_weight_for_part]⟩
  intro parts value h
  induction parts with
  | nil => rfl
  | cons p ps ih =>
    have hp := h p (List.mem_cons_self p ps)
    have hps : ∀ q ∈ ps, q.highest - q.lowest ≠ 0 := fun q hq =>
      h q (List.mem_cons_of_mem p hq)
    by_cases hin : p.lowest ≤ value ∧ value ≤ p.highest
    · simp [scan_parts, calculate_weight_for_part, firstContainingPart, hin, hp,
        partFormulaWeight]
    · simp only [scan_parts, calculate_weight_for_part, if_neg hin]
      rw [ih hps]
      simp [firstContainingPart, hin]

/-- Witness for C8: instantiating the general conjunct at the scenario part
list and value `1/4` discharges its hypothesis and reproduces the scenario
weights. -/
theorem scan_parts_first_containing_formula_witness :
    scan_parts [⟨0, 1/2, "young", "old"⟩] (1/4) =
      (firstContainingPart [⟨0, 1/2, "young", "old"⟩] (1/4)).map
        (fun p => partFormulaWeight p (1/4)) :=
  scan_parts_first_containing_formula.1 [⟨0, 1/2, "young", "old"⟩] (1/4)
    (by norm_num)

/-- **C10.** A part with zero span (`lowest = highest`) yields no weight from
`calculate_weight_for_part` — even when the value lies exactly on the shared
bound — and the part scan proceeds past it to the later parts. -/
theorem zero_span_part_returns_none (part : MacroPart) (value : ℚ)
    (rest : List MacroPart) (h : part.lowest = part.highest) :
    calculate_weight_for_part part value = none ∧
    scan_parts (part :: rest) value = scan_parts rest value := by
  have hz : calculate_weight_for_part part value = none := by
    unfold calculate_weight_for_part
    by_cases hin : part.lowest ≤ value ∧ value ≤ part.highest
    · simp [hin, h]
    · simp [hin]
  exact ⟨hz, by simp [scan_parts, hz]⟩

/-- Witness for C10: a zero-span part `[1,1]` evaluated exactly at `1` is
skipped and the scan falls through to a later part `[0,2]`, which produces
weights `(1/2, 1/2)`. -/
theorem zero_span_part_returns_none_witness :
    calculate_weight_for_part ⟨1, 1, "a", "b"⟩ 1 = none ∧
    scan_parts [⟨1, 1, "a", "b"⟩, ⟨0, 2, "c", "d"⟩] 1 =
      scan_parts [⟨0, 2, "c", "d"⟩] 1 :=
  zero_span_part_returns_none ⟨1, 1, "a", "b"⟩ 1 [⟨0, 2, "c", "d"⟩] rfl

/-- **C2 (code bug).** On the 2-joint scenario rig (root head vertices
`{0,1}`, child head vertices `{2,3}`, base positions
`[(0,0,0),(0,0,0),(0,1,0),(0,1,0)]`), `create_skeleton` gives the root a
bind translation of `(0, 1/2, 0)` — the centroid of the *whole mesh*, because
line 56 passes `mesh_verts` as the `head_vertices` argument of
`compute_transforms` — and a rest translation of `(0, 1/2, 0)`, not the
claimed `(0,0,0)` pure translation to the root head-group centroid. The
child's bind `(0,1,0)` and rest `(0,1,0)` do match the claim. -/
theorem create_skeleton_root_bind_uses_whole_mesh :
    create_skeleton [⟨0,0,0⟩, ⟨0,0,0⟩, ⟨0,1,0⟩, ⟨0,1,0⟩]
        [Bone.mk "root" [0,1] [Bone.mk "child" [2,3] []]] =
      [⟨"root", "root", none, ⟨0,1/2,0⟩, ⟨0,1/2,0⟩⟩,
       ⟨"root/child", "child", some "root", ⟨0,1,0⟩, ⟨0,1,0⟩⟩] ∧
    (⟨0,1/2,0⟩ : Vec3) ≠ ⟨0,0,0⟩ := by
  constructor
  · norm_num [create_skeleton, bfsAux, processChildren, compute_transforms, gather,
      centroid, Vec3.lsum, Vec3.add, Vec3.sub, Vec3.smul, Vec3.zero,
      Bone.name, Bone.headIdx, Bone.children]
    rfl
  · simp

/-- **C3 (code bug).** On the same 2-joint rig, the root's bind transform
composed with the child's local rest transform gives the translation
`(0, 1/2, 0) + (0, 1, 0) = (0, 3/2, 0)`, which differs from the child's bind
translation `(0, 1, 0)`: the rest/bind consistency invariant fails for
children of the root, because the root's bind transform is built from the
whole-mesh centroid while child rest transforms are relative to the root
head-group centroid. -/
theorem rest_bind_composition_fails_at_root_child :
    Vec3.add
        ((create_skeleton [⟨0,0,0⟩, ⟨0,0,0⟩, ⟨0,1,0⟩, ⟨0,1,0⟩]
            [Bone.mk "root" [0,1] [Bone.mk "child" [2,3] []]]).getD 0
          ⟨"", "", none, Vec3.zero, Vec3.zero⟩).bind
        ((create_skeleton [⟨0,0,0⟩, ⟨0,0,0⟩, ⟨0,1,0⟩, ⟨0,1,0⟩]
            [Bone.mk "root" [0,1] [Bone.mk "child" [2,3] []]]).getD 1
          ⟨"", "", none, Vec3.zero, Vec3.zero⟩).rest ≠
      ((create_skeleton [⟨0,0,0⟩, ⟨0,0,0⟩, ⟨0,1,0⟩, ⟨0,1,0⟩]
          [Bone.mk "root" [0,1] [Bone.mk "child" [2,3] []]]).getD 1
        ⟨"", "", none, Vec3.zero, Vec3.zero⟩).bind := by
  norm_num [create_skeleton, bfsAux, processChildren, compute_transforms, gather,
    centroid, Vec3.lsum, Vec3.add, Vec3.sub, Vec3.smul, Vec3.zero,
    Bone.name, Bone.headIdx, Bone.children]

/-- **C7 (code bug).** A two-sided `TargetModifier` (`min_val = -1`,
`max_val = 1`) evaluated at `v = -1` assigns the weight `min_val = -1` to the
min-side blendshape: the clamping branch returns `min_val` itself rather than
the sign-inverted magnitude, so the assigned weight is negative, contradicting
the code's own comment that blendshape weights are always positive. -/
theorem target_modifier_negative_weight_bug :
    get_blendshapes_for_target
      ⟨-1, 1, some "t_min", some "t_max", none⟩ (-1) =
      .ok ("t_min", -1) ∧ (-1 : ℚ) < 0 := by
  constructor
  · norm_num [get_blendshapes_for_target]
  · norm_num

end OvMakehuman
